import Mathlib

/-!
Shallow embedding of the robot task-scheduling system
(`src/models/robot.py`, `src/models/task.py`,
`src/scheduler/robot_scheduler.py`, `src/services/task_service.py`).

Python floats are modelled as exact rationals; the Euclidean distance
`sqrt((x1-x2)^2+(y1-y2)^2)` is modelled as a real number via `Real.sqrt`
over the rational squared distance.  Since `sqrt` is strictly monotone on
nonnegative arguments, the scheduler's strict `<` comparisons between
distances are equivalently computed on squared distances; the bridge is
proved in `distance_to_lt_iff` and `distance_to_le_iff` below.

Python dictionaries are insertion-ordered maps; they are modelled as
association lists of entities keyed by their id field, with lookup taking
the first match, overwrite replacing in place and deletion removing the
(unique) matching entry.  In-place mutation of a shared object is modelled
by explicit functional update of the entry with the same id.
-/

deriving instance DecidableEq for Except

attribute [local semireducible] Rat.mul Rat.add Rat.sub

namespace RoboSched

/-- Model of Python `str.startswith(marker)` on the character list. -/
def pyStartsWith (s marker : String) : Bool :=
  marker.data.isPrefixOf s.data

/-- Model of Python `str.strip()`: removes leading and trailing whitespace. -/
def pyStrip (s : String) : String :=
  String.mk (((s.data.dropWhile Char.isWhitespace).reverse.dropWhile
    Char.isWhitespace).reverse)

/-- `RobotStatus` enum from `src/models/robot.py`. -/
inductive RobotStatus where
  | idle
  | busy
  | charging
  | maintenance
deriving DecidableEq, Repr

/-- `Position` model from `src/models/robot.py` (coordinates as exact rationals). -/
structure Position where
  x : ℚ
  y : ℚ
deriving DecidableEq, Repr

/-- The pydantic field bounds on `Position`: both coordinates in [-1000, 1000]. -/
def Position.valid (p : Position) : Prop :=
  -1000 ≤ p.x ∧ p.x ≤ 1000 ∧ -1000 ≤ p.y ∧ p.y ≤ 1000

instance (p : Position) : Decidable p.valid := by
  unfold Position.valid; infer_instance

/-- Squared Euclidean distance `(x1-x2)^2 + (y1-y2)^2` (exact rational). -/
def Position.dist2 (p other : Position) : ℚ :=
  (p.x - other.x) ^ 2 + (p.y - other.y) ^ 2

/-- `Position.distance_to` from `src/models/robot.py`:
`sqrt((x1-x2)^2 + (y1-y2)^2)` as a real number. -/
noncomputable def Position.distance_to (p other : Position) : ℝ :=
  Real.sqrt ((p.dist2 other : ℚ) : ℝ)

/-- `Robot` model from `src/models/robot.py`.  `created_at` is a wall-clock
timestamp never consulted by any operation and is omitted. -/
structure Robot where
  robot_id : String
  name : String
  position : Position
  status : RobotStatus
  current_task : Option String
  battery_level : ℚ
deriving DecidableEq, Repr

/-- `Robot.is_available`: status IDLE and battery strictly above 20. -/
def Robot.is_available (r : Robot) : Bool :=
  decide (r.status = RobotStatus.idle) && decide ((20 : ℚ) < r.battery_level)

/-- `Robot.assign_task`: raises when the robot is not available, otherwise
sets `current_task` and status BUSY. -/
def Robot.assign_task (r : Robot) (task_id : String) : Except String Robot :=
  if r.is_available then
    Except.ok { r with current_task := some task_id, status := RobotStatus.busy }
  else
    Except.error ("机器人" ++ r.robot_id ++ "不可用")

/-- `Robot.complete_task`: clears the current task and returns to IDLE. -/
def Robot.complete_task (r : Robot) : Robot :=
  { r with current_task := none, status := RobotStatus.idle }

/-- `Robot.move_to`: replaces the position unconditionally. -/
def Robot.move_to (r : Robot) (new_position : Position) : Robot :=
  { r with position := new_position }

/-- `TaskType` enum from `src/models/task.py`. -/
inductive TaskType where
  | delivery
  | patrol
  | cleaning
deriving DecidableEq, Repr

/-- `TaskStatus` enum from `src/models/task.py`. -/
inductive TaskStatus where
  | pending
  | assigned
  | in_progress
  | completed
  | failed
deriving DecidableEq, Repr

/-- `Task` model from `src/models/task.py` (`created_at` omitted as above). -/
structure Task where
  task_id : String
  task_type : TaskType
  target_position : Position
  priority : Int
  status : TaskStatus
  assigned_robot : Option String
  estimated_duration : Int
  description : String
deriving DecidableEq, Repr

/-- The pydantic construction-time validation of `Task`: id starts with `T`,
id length in [1,50], priority in [1,5], duration in [1,1440], description
stripped and at most 500 characters, target position within bounds. -/
def Task.Valid (t : Task) : Prop :=
  pyStartsWith t.task_id "T" = true ∧ 1 ≤ t.task_id.length ∧ t.task_id.length ≤ 50 ∧
  1 ≤ t.priority ∧ t.priority ≤ 5 ∧
  1 ≤ t.estimated_duration ∧ t.estimated_duration ≤ 1440 ∧
  t.description.length ≤ 500 ∧ pyStrip t.description = t.description ∧
  t.target_position.valid

instance (t : Task) : Decidable t.Valid := by
  unfold Task.Valid; infer_instance

/-- `Task.is_high_priority`: priority at least 4. -/
def Task.is_high_priority (t : Task) : Bool :=
  decide (4 ≤ t.priority)

/-- `Task.is_pending`. -/
def Task.is_pending (t : Task) : Bool :=
  decide (t.status = TaskStatus.pending)

/-- `Task.is_completed`. -/
def Task.is_completed (t : Task) : Bool :=
  decide (t.status = TaskStatus.completed)

/-- `Task.assign_to_robot`: raises unless PENDING; sets `assigned_robot`
and status ASSIGNED. -/
def Task.assign_to_robot (t : Task) (robot_id : String) : Except String Task :=
  if t.is_pending then
    Except.ok { t with assigned_robot := some robot_id, status := TaskStatus.assigned }
  else
    Except.error ("任务" ++ t.task_id ++ "无法分配")

/-- `Task.start_execution`: raises unless ASSIGNED; sets status IN_PROGRESS. -/
def Task.start_execution (t : Task) : Except String Task :=
  if t.status = TaskStatus.assigned then
    Except.ok { t with status := TaskStatus.in_progress }
  else
    Except.error ("任务" ++ t.task_id ++ "无法开始执行")

/-- `Task.complete`: raises unless IN_PROGRESS; sets status COMPLETED. -/
def Task.complete (t : Task) : Except String Task :=
  if t.status = TaskStatus.in_progress then
    Except.ok { t with status := TaskStatus.completed }
  else
    Except.error ("任务" ++ t.task_id ++ "无法完成")

/-- `Task.fail`: always succeeds; sets status FAILED unconditionally and,
when the reason is non-empty (Python truthiness), appends
`"\n失败原因: " ++ reason` to the description and strips the result. -/
def Task.fail (t : Task) (reason : String) : Task :=
  { t with
    status := TaskStatus.failed,
    description :=
      if reason = "" then t.description
      else pyStrip (t.description ++ "\n失败原因: " ++ reason) }

/-- The four lifecycle methods of `Task`, reified so that statements can
quantify over an arbitrary method call. -/
inductive TaskOp where
  | assignTo : String → TaskOp
  | start : TaskOp
  | complete : TaskOp
  | fail : String → TaskOp
deriving DecidableEq, Repr

/-- Dispatch of a reified lifecycle call: `none` models the call raising
(in which case the Python object is left unchanged). -/
def Task.applyOp (t : Task) : TaskOp → Option Task
  | TaskOp.assignTo rid => (t.assign_to_robot rid).toOption
  | TaskOp.start => t.start_execution.toOption
  | TaskOp.complete => (Task.complete t).toOption
  | TaskOp.fail reason => some (t.fail reason)

/-- The status edges the specification allows: PENDING→ASSIGNED,
ASSIGNED→IN_PROGRESS, IN_PROGRESS→COMPLETED, and any→FAILED. -/
def allowedStep (a b : TaskStatus) : Prop :=
  (a = TaskStatus.pending ∧ b = TaskStatus.assigned) ∨
  (a = TaskStatus.assigned ∧ b = TaskStatus.in_progress) ∨
  (a = TaskStatus.in_progress ∧ b = TaskStatus.completed) ∨
  b = TaskStatus.failed

/-- Exactly when a lifecycle call raises, as a function of the source
status: `fail` never raises, the others raise off their source state. -/
def opRejected (st : TaskStatus) : TaskOp → Prop
  | TaskOp.assignTo _ => st ≠ TaskStatus.pending
  | TaskOp.start => st ≠ TaskStatus.assigned
  | TaskOp.complete => st ≠ TaskStatus.in_progress
  | TaskOp.fail _ => False

/-- A driver issuing a sequence of lifecycle calls, keeping the task
unchanged whenever a call raises. -/
def Task.applySeq (t : Task) : List TaskOp → Task
  | [] => t
  | op :: ops => Task.applySeq ((t.applyOp op).getD t) ops

/-- Lookup in an id-keyed robot collection (first match, as in a dict). -/
def lookupRobot (l : List Robot) (robot_id : String) : Option Robot :=
  l.find? (fun r => r.robot_id == robot_id)

/-- Lookup in an id-keyed task collection (first match, as in a dict). -/
def lookupTask (l : List Task) (task_id : String) : Option Task :=
  l.find? (fun t => t.task_id == task_id)

/-- In-place update of the entry whose id equals the new robot's id
(models mutation of the shared `Robot` object held by the dict). -/
def updateRobotList (l : List Robot) (r : Robot) : List Robot :=
  l.map (fun x => if x.robot_id = r.robot_id then r else x)

/-- In-place update of the entry whose id equals the new task's id
(models mutation of the shared `Task` object held by the dict). -/
def updateTaskList (l : List Task) (t : Task) : List Task :=
  l.map (fun x => if x.task_id = t.task_id then t else x)

/-- Dict insert-or-overwrite by key (`self.tasks[task.task_id] = task`):
overwriting keeps the original position, inserting appends. -/
def upsertTask (l : List Task) (t : Task) : List Task :=
  if (lookupTask l t.task_id).isSome then updateTaskList l t else l ++ [t]

/-- `RobotScheduler` state from `src/scheduler/robot_scheduler.py`:
the two insertion-ordered id-keyed collections. -/
structure RobotScheduler where
  robots : List Robot
  tasks : List Task
deriving DecidableEq, Repr

/-- Well-formedness every reachable scheduler state has by construction of
the Python dicts: keys are unique. -/
def RobotScheduler.WF (s : RobotScheduler) : Prop :=
  (s.robots.map (fun r => r.robot_id)).Nodup ∧
  (s.tasks.map (fun t => t.task_id)).Nodup

instance (s : RobotScheduler) : Decidable s.WF := by
  unfold RobotScheduler.WF; infer_instance

/-- `RobotScheduler.register_robot`: raises on duplicate id, else inserts. -/
def RobotScheduler.register_robot (s : RobotScheduler) (robot : Robot) :
    Except String RobotScheduler :=
  if (lookupRobot s.robots robot.robot_id).isSome then
    Except.error ("机器人" ++ robot.robot_id ++ "已存在")
  else
    Except.ok { s with robots := s.robots ++ [robot] }

/-- `RobotScheduler.unregister_robot`: returns false if absent; otherwise,
if the robot holds a task id (Python truthiness: non-None and non-empty)
that resolves in the task dict, that task is force-reset to PENDING with no
assigned robot, and the robot is removed. -/
def RobotScheduler.unregister_robot (s : RobotScheduler) (robot_id : String) :
    Bool × RobotScheduler :=
  match lookupRobot s.robots robot_id with
  | none => (false, s)
  | some robot =>
    let tasks' :=
      match robot.current_task with
      | none => s.tasks
      | some tid =>
        if tid = "" then s.tasks
        else
          match lookupTask s.tasks tid with
          | none => s.tasks
          | some task =>
            updateTaskList s.tasks
              { task with status := TaskStatus.pending, assigned_robot := none }
    (true,
      { robots := s.robots.eraseP (fun r => r.robot_id == robot_id),
        tasks := tasks' })

/-- `RobotScheduler.add_task`: unconditional insert/overwrite by id. -/
def RobotScheduler.add_task (s : RobotScheduler) (task : Task) : RobotScheduler :=
  { s with tasks := upsertTask s.tasks task }

/-- `RobotScheduler.get_available_robots`: snapshot filter by availability. -/
def RobotScheduler.get_available_robots (s : RobotScheduler) : List Robot :=
  s.robots.filter (fun r => r.is_available)

/-- One insertion step of the stable descending-priority sort: the new
element is placed before the first element whose priority is not strictly
greater, so that among equal priorities earlier elements stay first. -/
def insertByPriority (t : Task) : List Task → List Task
  | [] => [t]
  | x :: xs =>
    if t.priority < x.priority then x :: insertByPriority t xs
    else t :: x :: xs

/-- Model of Python `sorted(..., key=lambda t: t.priority, reverse=True)`:
a stable sort by descending priority (insertion sort, which is stable). -/
def sortedByPriorityDesc : List Task → List Task
  | [] => []
  | t :: ts => insertByPriority t (sortedByPriorityDesc ts)

/-- `RobotScheduler.get_pending_tasks`: PENDING tasks, stably sorted by
descending priority. -/
def RobotScheduler.get_pending_tasks (s : RobotScheduler) : List Task :=
  sortedByPriorityDesc (s.tasks.filter (fun t => t.is_pending))

/-- The scan loop of `_find_best_robot`: running best robot and its squared
distance, updated on strict decrease (`distance < min_distance`; the initial
`float("inf")` is modelled by the `none` accumulator, which any first
candidate beats). -/
def bestLoop (target : Position) : List Robot → Option (Robot × ℚ) → Option (Robot × ℚ)
  | [], acc => acc
  | r :: rs, acc =>
    match acc with
    | none => bestLoop target rs (some (r, r.position.dist2 target))
    | some (b, m) =>
      if r.position.dist2 target < m then
        bestLoop target rs (some (r, r.position.dist2 target))
      else
        bestLoop target rs (some (b, m))

/-- `RobotScheduler._find_best_robot`: linear scan over available robots,
keeping the first robot at the minimum distance to the task's target. -/
def RobotScheduler.find_best_robot (s : RobotScheduler) (task : Task) : Option Robot :=
  (bestLoop task.target_position s.get_available_robots none).map (fun p => p.1)

/-- `RobotScheduler.assign_task`: adds the task to the collection, picks the
best robot (none available ⟹ return `none`), then performs
`robot.assign_task` followed by `task.assign_to_robot`; if either raises,
the task object is reset to PENDING/unassigned (still stored in the dict)
and `SchedulerError` propagates.  The returned state is the scheduler state
observable after the call, including the raising paths. -/
def RobotScheduler.assign_task (s : RobotScheduler) (task : Task) :
    Except String (Option String) × RobotScheduler :=
  let s1 := s.add_task task
  match s1.find_best_robot task with
  | none => (Except.ok none, s1)
  | some best =>
    match best.assign_task task.task_id with
    | Except.error _ =>
      (Except.error "任务分配失败",
        { s1 with
          tasks := updateTaskList s1.tasks
            { task with status := TaskStatus.pending, assigned_robot := none } })
    | Except.ok best' =>
      match task.assign_to_robot best.robot_id with
      | Except.error _ =>
        (Except.error "任务分配失败",
          { robots := updateRobotList s1.robots best',
            tasks := updateTaskList s1.tasks
              { task with status := TaskStatus.pending, assigned_robot := none } })
      | Except.ok task' =>
        (Except.ok (some best.robot_id),
          { robots := updateRobotList s1.robots best',
            tasks := updateTaskList s1.tasks task' })

/-- `RobotScheduler.complete_task`: raises `TaskNotFoundError` if the task
is absent; otherwise releases the assigned robot (if its id is truthy and
registered), then calls `task.complete()`, returning false when that
transition is rejected. -/
def RobotScheduler.complete_task (s : RobotScheduler) (task_id : String) :
    Except String Bool × RobotScheduler :=
  match lookupTask s.tasks task_id with
  | none => (Except.error ("任务" ++ task_id ++ "不存在"), s)
  | some task =>
    let robots' :=
      match task.assigned_robot with
      | none => s.robots
      | some rid =>
        if rid = "" then s.robots
        else
          match lookupRobot s.robots rid with
          | none => s.robots
          | some robot => updateRobotList s.robots robot.complete_task
    match task.complete with
    | Except.ok task' =>
      (Except.ok true, { robots := robots', tasks := updateTaskList s.tasks task' })
    | Except.error _ => (Except.ok false, { s with robots := robots' })

/-- `RobotScheduler.fail_task`: returns false if absent; otherwise releases
the assigned robot if any, then unconditionally `task.fail(reason)`. -/
def RobotScheduler.fail_task (s : RobotScheduler) (task_id reason : String) :
    Bool × RobotScheduler :=
  match lookupTask s.tasks task_id with
  | none => (false, s)
  | some task =>
    let robots' :=
      match task.assigned_robot with
      | none => s.robots
      | some rid =>
        if rid = "" then s.robots
        else
          match lookupRobot s.robots rid with
          | none => s.robots
          | some robot => updateRobotList s.robots robot.complete_task
    (true, { robots := robots', tasks := updateTaskList s.tasks (task.fail reason) })

/-- The loop of `auto_assign_pending_tasks`: assignment failures
(`SchedulerError`) are swallowed, successes are recorded in order. -/
def autoAssignLoop : List Task → RobotScheduler → List (String × String) × RobotScheduler
  | [], s => ([], s)
  | t :: ts, s =>
    match s.assign_task t with
    | (Except.ok (some rid), s') =>
      let rest := autoAssignLoop ts s'
      ((t.task_id, rid) :: rest.1, rest.2)
    | (Except.ok none, s') => autoAssignLoop ts s'
    | (Except.error _, s') => autoAssignLoop ts s'

/-- `RobotScheduler.auto_assign_pending_tasks`: iterates the pending tasks
in priority-descending order, assigning each and collecting successes. -/
def RobotScheduler.auto_assign_pending_tasks (s : RobotScheduler) :
    List (String × String) × RobotScheduler :=
  autoAssignLoop s.get_pending_tasks s

/-- `TaskService` from `src/services/task_service.py`: an independent
id-keyed task collection. -/
structure TaskService where
  tasks : List Task
deriving DecidableEq, Repr

/-- `TaskService.update_task_status`: returns false if the task is absent;
otherwise sets the status field directly (no transition check, no other
field touched) and returns true. -/
def TaskService.update_task_status (sv : TaskService) (task_id : String)
    (status : TaskStatus) : Bool × TaskService :=
  match lookupTask sv.tasks task_id with
  | none => (false, sv)
  | some task =>
    (true, { tasks := updateTaskList sv.tasks { task with status := status } })

/-! Concrete entities used to instantiate the theorems below. -/

/-- Robot at distance 5 from the origin, idle, full battery. -/
def cRd5 : Robot :=
  ⟨"R1", "alpha", ⟨5, 0⟩, RobotStatus.idle, none, 100⟩

/-- Robot at distance 1 from the origin, idle, full battery. -/
def cRd1 : Robot :=
  ⟨"R2", "beta", ⟨1, 0⟩, RobotStatus.idle, none, 100⟩

/-- Robot at distance 10 from the origin, idle, full battery. -/
def cRd10 : Robot :=
  ⟨"R3", "gamma", ⟨10, 0⟩, RobotStatus.idle, none, 100⟩

/-- A pending task targeting the origin. -/
def cTask1 : Task :=
  ⟨"T1", TaskType.delivery, ⟨0, 0⟩, 3, TaskStatus.pending, none, 30, "x"⟩

/-- A task already COMPLETED, used to drive `assign_task` into its
defensive failure path. -/
def cTaskDone : Task :=
  ⟨"T9", TaskType.delivery, ⟨0, 0⟩, 3, TaskStatus.completed, none, 30, "x"⟩

/-- Scheduler with the three idle robots at distances 5, 1 and 10. -/
def cSched0 : RobotScheduler :=
  ⟨[cRd5, cRd1, cRd10], []⟩

/-- Second pending task, high priority. -/
def cTask2 : Task :=
  ⟨"T2", TaskType.patrol, ⟨0, 0⟩, 5, TaskStatus.pending, none, 30, "x"⟩

/-- Third pending task. -/
def cTask3 : Task :=
  ⟨"T3", TaskType.cleaning, ⟨0, 0⟩, 3, TaskStatus.pending, none, 30, "x"⟩

/-- Scheduler with two available robots and three pending tasks. -/
def cSched2 : RobotScheduler :=
  ⟨[cRd5, cRd1], [cTask1, cTask2, cTask3]⟩

/-- A busy robot holding task T1. -/
def cRbusy : Robot :=
  ⟨"R1", "alpha", ⟨0, 0⟩, RobotStatus.busy, some "T1", 100⟩

/-- Task T1 in progress, assigned to robot R1. -/
def cTaskInProg : Task :=
  ⟨"T1", TaskType.delivery, ⟨0, 0⟩, 3, TaskStatus.in_progress, some "R1", 30, "x"⟩

/-- Task T1 merely ASSIGNED to robot R1 (not yet in progress). -/
def cTaskAssigned : Task :=
  ⟨"T1", TaskType.delivery, ⟨0, 0⟩, 3, TaskStatus.assigned, some "R1", 30, "x"⟩

/-- Scheduler in which busy robot R1 holds the in-progress task T1. -/
def cSched3 : RobotScheduler :=
  ⟨[cRbusy], [cTaskInProg]⟩

/-- Scheduler in which busy robot R1 holds the merely-assigned task T1. -/
def cSched4 : RobotScheduler :=
  ⟨[cRbusy], [cTaskAssigned]⟩

/-- A valid task whose description already has the maximum 500 characters. -/
def cTaskLongDesc : Task :=
  ⟨"T8", TaskType.delivery, ⟨0, 0⟩, 3, TaskStatus.pending, none, 30,
    String.mk (List.replicate 500 'a')⟩

/-- A completed task held by the registry. -/
def cSvcTask : Task :=
  ⟨"T1", TaskType.delivery, ⟨0, 0⟩, 3, TaskStatus.completed, some "R1", 30, "x"⟩

/-- Task registry holding the single completed task T1. -/
def cSvc : TaskService :=
  ⟨[cSvcTask]⟩

/-! Basic lemmas about stripping and distances. -/

theorem pyStrip_length_le (s : String) : (pyStrip s).length ≤ s.length := by
  show (((s.data.dropWhile Char.isWhitespace).reverse.dropWhile
    Char.isWhitespace).reverse).length ≤ s.data.length
  rw [List.length_reverse]
  calc ((s.data.dropWhile Char.isWhitespace).reverse.dropWhile
        Char.isWhitespace).length
      ≤ (s.data.dropWhile Char.isWhitespace).reverse.length :=
        (List.dropWhile_sublist _).length_le
    _ = (s.data.dropWhile Char.isWhitespace).length := List.length_reverse _
    _ ≤ s.data.length := (List.dropWhile_sublist _).length_le

theorem dist2_nonneg (p q : Position) : 0 ≤ p.dist2 q := by
  unfold Position.dist2
  positivity

theorem dist2_comm (p q : Position) : p.dist2 q = q.dist2 p := by
  unfold Position.dist2
  ring

theorem distance_to_lt_iff (p q t : Position) :
    p.distance_to t < q.distance_to t ↔ p.dist2 t < q.dist2 t := by
  unfold Position.distance_to
  rw [Real.sqrt_lt_sqrt_iff (by exact_mod_cast dist2_nonneg p t)]
  exact Rat.cast_lt

theorem distance_to_le_iff (p q t : Position) :
    p.distance_to t ≤ q.distance_to t ↔ p.dist2 t ≤ q.dist2 t := by
  unfold Position.distance_to
  rw [Real.sqrt_le_sqrt_iff (by exact_mod_cast dist2_nonneg q t)]
  exact Rat.cast_le

/-! Lemmas about id-keyed lookup, in-place update, and deletion. -/

theorem find?_update_eq {α : Type} (key : α → String) (l : List α) (a : α)
    (k : String) (hk : key a = k)
    (h : (l.find? (fun x => key x == k)).isSome = true) :
    (l.map (fun x => if key x = k then a else x)).find?
      (fun x => key x == k) = some a := by
  induction l with
  | nil => simp at h
  | cons x xs ih =>
    by_cases hx : key x = k
    · rw [List.map_cons, if_pos hx]
      exact List.find?_cons_of_pos _ (by simp [hk])
    · rw [List.map_cons, if_neg hx]
      rw [List.find?_cons_of_neg _ (by simp [hx])]
      rw [List.find?_cons_of_neg _ (by simp [hx])] at h
      exact ih h

theorem find?_eraseP_none {α : Type} (key : α → String) (l : List α) (k : String)
    (h : (l.map key).Nodup) :
    (l.eraseP (fun x => key x == k)).find? (fun x => key x == k) = none := by
  induction l with
  | nil => rfl
  | cons x xs ih =>
    rw [List.map_cons, List.nodup_cons] at h
    by_cases hx : key x = k
    · rw [List.eraseP_cons_of_pos (by simp [hx])]
      rw [List.find?_eq_none]
      intro y hy hky
      have hyk : key y = k := by simpa using hky
      exact h.1 (by
        rw [hx, ← hyk]
        exact List.mem_map_of_mem key hy)
    · rw [List.eraseP_cons_of_neg (by simp [hx])]
      rw [List.find?_cons_of_neg _ (by simp [hx])]
      exact ih h.2

theorem lookupTask_updateTaskList (l : List Task) (t : Task)
    (h : (lookupTask l t.task_id).isSome = true) :
    lookupTask (updateTaskList l t) t.task_id = some t := by
  unfold lookupTask updateTaskList
  unfold lookupTask at h
  exact find?_update_eq (fun x => x.task_id) l t t.task_id rfl h

theorem lookupRobot_updateRobotList (l : List Robot) (r : Robot)
    (h : (lookupRobot l r.robot_id).isSome = true) :
    lookupRobot (updateRobotList l r) r.robot_id = some r := by
  unfold lookupRobot updateRobotList
  unfold lookupRobot at h
  exact find?_update_eq (fun x => x.robot_id) l r r.robot_id rfl h

theorem lookupRobot_eraseP (l : List Robot) (k : String)
    (h : (l.map (fun r => r.robot_id)).Nodup) :
    lookupRobot (l.eraseP (fun r => r.robot_id == k)) k = none := by
  unfold lookupRobot
  exact find?_eraseP_none (fun r => r.robot_id) l k h

theorem lookupTask_upsertTask (l : List Task) (t : Task) :
    lookupTask (upsertTask l t) t.task_id = some t := by
  unfold upsertTask
  by_cases h : (lookupTask l t.task_id).isSome = true
  · rw [if_pos h]
    exact lookupTask_updateTaskList l t h
  · rw [if_neg h]
    unfold lookupTask at h ⊢
    rw [List.find?_append, Option.not_isSome_iff_eq_none.1 h]
    simp [List.find?]

/-- Claim C9: for all valid positions `p` and `q`, `distance_to` is
symmetric, and it is zero exactly when the coordinates agree. -/
theorem distance_to_symm_and_zero_iff (p q : Position)
    (hp : p.valid) (hq : q.valid) :
    p.distance_to q = q.distance_to p
    ∧ (p.distance_to q = 0 ↔ p.x = q.x ∧ p.y = q.y) := by
  constructor
  · unfold Position.distance_to
    rw [dist2_comm]
  · unfold Position.distance_to
    rw [Real.sqrt_eq_zero']
    constructor
    · intro h
      have h0 : p.dist2 q = 0 :=
        le_antisymm (by exact_mod_cast h) (dist2_nonneg p q)
      unfold Position.dist2 at h0
      obtain ⟨h1, h2⟩ :=
        (add_eq_zero_iff_of_nonneg (sq_nonneg _) (sq_nonneg _)).1 h0
      refine ⟨sub_eq_zero.1 ?_, sub_eq_zero.1 ?_⟩
      · exact (pow_eq_zero_iff (two_ne_zero)).1 h1
      · exact (pow_eq_zero_iff (two_ne_zero)).1 h2
    · intro h
      have h0 : p.dist2 q = 0 := by
        unfold Position.dist2
        rw [h.1, h.2]
        ring
      rw [h0]
      norm_num

/-- Witness for C9 at the concrete positions (3,4) and (0,0). -/
theorem distance_to_symm_and_zero_iff_witness :
    (Position.mk 3 4).valid ∧ (Position.mk 0 0).valid ∧
    ((Position.mk 3 4).distance_to (Position.mk 0 0) =
        (Position.mk 0 0).distance_to (Position.mk 3 4)
      ∧ ((Position.mk 3 4).distance_to (Position.mk 0 0) = 0 ↔
          (Position.mk 3 4).x = (Position.mk 0 0).x ∧
          (Position.mk 3 4).y = (Position.mk 0 0).y)) :=
  ⟨by decide, by decide,
    distance_to_symm_and_zero_iff (Position.mk 3 4) (Position.mk 0 0)
      (by decide) (by decide)⟩

/-- Claim C10: the registry's `update_task_status` sets the status to any
requested value with no transition-order check, leaves `assigned_robot`
untouched, and returns true; on an absent id it returns false and leaves
the registry unchanged. -/
theorem update_task_status_unchecked (sv : TaskService) (tid : String)
    (st : TaskStatus) :
    (∀ t, lookupTask sv.tasks tid = some t →
      sv.update_task_status tid st
        = (true, ⟨updateTaskList sv.tasks { t with status := st }⟩)
      ∧ lookupTask (sv.update_task_status tid st).2.tasks tid
          = some { t with status := st }
      ∧ ({ t with status := st } : Task).assigned_robot = t.assigned_robot
      ∧ ({ t with status := st } : Task).status = st)
    ∧ (lookupTask sv.tasks tid = none →
        sv.update_task_status tid st = (false, sv)) := by
  constructor
  · intro t h
    have htid : t.task_id = tid := by
      have := List.find?_some h
      simpa using this
    have heq : sv.update_task_status tid st
        = (true, ⟨updateTaskList sv.tasks { t with status := st }⟩) := by
      unfold TaskService.update_task_status
      rw [h]
    refine ⟨heq, ?_, rfl, rfl⟩
    rw [heq]
    rw [← htid]
    exact lookupTask_updateTaskList sv.tasks { t with status := st }
      (by rw [htid, h]; rfl)
  · intro h
    unfold TaskService.update_task_status
    rw [h]

/-- Witness for C10: setting a COMPLETED task back to PENDING succeeds,
a move the lifecycle forbids. -/
theorem update_task_status_unchecked_witness :
    cSvc.update_task_status "T1" TaskStatus.pending
      = (true, ⟨updateTaskList cSvc.tasks { cSvcTask with status := TaskStatus.pending }⟩)
    ∧ lookupTask (cSvc.update_task_status "T1" TaskStatus.pending).2.tasks "T1"
        = some { cSvcTask with status := TaskStatus.pending }
    ∧ ({ cSvcTask with status := TaskStatus.pending } : Task).assigned_robot
        = cSvcTask.assigned_robot
    ∧ ({ cSvcTask with status := TaskStatus.pending } : Task).status
        = TaskStatus.pending :=
  (update_task_status_unchecked cSvc "T1" TaskStatus.pending).1 cSvcTask (by decide)

/-- Claim C3: deregistering a registered robot holding task X force-resets
X to PENDING/unassigned regardless of X's prior status, removes the robot
and returns true; deregistering an absent id returns false and changes
nothing. -/
theorem unregister_robot_resets_task (s : RobotScheduler) (uid : String) :
    (lookupRobot s.robots uid = none → s.unregister_robot uid = (false, s))
    ∧ (∀ u x, s.WF → lookupRobot s.robots uid = some u →
        u.current_task = some x.task_id → x.task_id ≠ "" →
        lookupTask s.tasks x.task_id = some x →
        (s.unregister_robot uid).1 = true
        ∧ lookupTask (s.unregister_robot uid).2.tasks x.task_id
            = some { x with status := TaskStatus.pending, assigned_robot := none }
        ∧ lookupRobot (s.unregister_robot uid).2.robots uid = none) := by
  constructor
  · intro h
    unfold RobotScheduler.unregister_robot
    rw [h]
  · intro u x hwf hu hcur hne hx
    have heq : s.unregister_robot uid
        = (true,
          { robots := s.robots.eraseP (fun r => r.robot_id == uid),
            tasks := updateTaskList s.tasks
              { x with status := TaskStatus.pending, assigned_robot := none } }) := by
      simp only [RobotScheduler.unregister_robot, hu, hcur, if_neg hne, hx]
    rw [heq]
    refine ⟨rfl, ?_, ?_⟩
    · exact lookupTask_updateTaskList s.tasks
        { x with status := TaskStatus.pending, assigned_robot := none }
        (by rw [hx]; rfl)
    · exact lookupRobot_eraseP s.robots uid hwf.1

/-- Witness for C3: deregistering busy robot R1 resets the IN_PROGRESS
task T1 to PENDING/unassigned and removes the robot. -/
theorem unregister_robot_resets_task_witness :
    (cSched3.unregister_robot "R1").1 = true
    ∧ lookupTask (cSched3.unregister_robot "R1").2.tasks cTaskInProg.task_id
        = some { cTaskInProg with status := TaskStatus.pending, assigned_robot := none }
    ∧ lookupRobot (cSched3.unregister_robot "R1").2.robots "R1" = none :=
  (unregister_robot_resets_task cSched3 "R1").2 cRbusy cTaskInProg
    (by decide) (by decide) (by decide) (by decide) (by decide)

/-- Claim C4: `complete_task` on a task whose assigned robot is registered
releases that robot to IDLE with no current task even when the task is not
IN_PROGRESS, in which case the rejected `complete()` makes the call return
false without raising; an absent task id raises the not-found error. -/
theorem complete_task_releases_robot (s : RobotScheduler) (tid : String) :
    (lookupTask s.tasks tid = none →
      s.complete_task tid = (Except.error ("任务" ++ tid ++ "不存在"), s))
    ∧ (∀ t u rid, lookupTask s.tasks tid = some t →
        t.assigned_robot = some rid → rid ≠ "" →
        lookupRobot s.robots rid = some u →
        lookupRobot (s.complete_task tid).2.robots rid
          = some { u with current_task := none, status := RobotStatus.idle }
        ∧ (s.complete_task tid).1
            = Except.ok (decide (t.status = TaskStatus.in_progress))) := by
  constructor
  · intro h
    unfold RobotScheduler.complete_task
    rw [h]
  · intro t u rid ht har hne hu
    have hrid : u.robot_id = rid := by
      have := List.find?_some hu
      simpa using this
    have hrel : lookupRobot (updateRobotList s.robots u.complete_task) rid
        = some { u with current_task := none, status := RobotStatus.idle } := by
      rw [← hrid]
      exact lookupRobot_updateRobotList s.robots u.complete_task
        (by
          show (lookupRobot s.robots u.robot_id).isSome = true
          rw [hrid, hu]
          rfl)
    by_cases hst : t.status = TaskStatus.in_progress
    · have heq : s.complete_task tid
          = (Except.ok true,
            { robots := updateRobotList s.robots u.complete_task,
              tasks := updateTaskList s.tasks
                { t with status := TaskStatus.completed } }) := by
        simp only [RobotScheduler.complete_task, ht, har, if_neg hne, hu,
          Task.complete, if_pos hst]
      rw [heq]
      exact ⟨hrel, by rw [decide_eq_true hst]⟩
    · have heq : s.complete_task tid
          = (Except.ok false,
            { s with robots := updateRobotList s.robots u.complete_task }) := by
        simp only [RobotScheduler.complete_task, ht, har, if_neg hne, hu,
          Task.complete, if_neg hst]
      rw [heq]
      refine ⟨hrel, ?_⟩
      rw [decide_eq_false hst]

/-- Witness for C4: completing the merely-ASSIGNED task T1 returns false
yet still releases robot R1 to IDLE. -/
theorem complete_task_releases_robot_witness :
    lookupRobot (cSched4.complete_task "T1").2.robots "R1"
      = some { cRbusy with current_task := none, status := RobotStatus.idle }
    ∧ (cSched4.complete_task "T1").1
        = Except.ok (decide (cTaskAssigned.status = TaskStatus.in_progress)) :=
  (complete_task_releases_robot cSched4 "T1").2 cTaskAssigned cRbusy "R1"
    (by decide) (by decide) (by decide) (by decide)

/-! Lemmas for the task lifecycle state machine. -/

theorem assign_to_robot_eq (t : Task) (rid : String) :
    t.assign_to_robot rid =
      if t.status = TaskStatus.pending then
        Except.ok { t with assigned_robot := some rid, status := TaskStatus.assigned }
      else Except.error ("任务" ++ t.task_id ++ "无法分配") := by
  unfold Task.assign_to_robot Task.is_pending
  by_cases hp : t.status = TaskStatus.pending
  · rw [if_pos (decide_eq_true hp), if_pos hp]
  · rw [if_neg (by simp [hp]), if_neg hp]

theorem applyOp_allowedStep (t : Task) (op : TaskOp) (t' : Task)
    (h : t.applyOp op = some t') : allowedStep t.status t'.status := by
  cases op with
  | assignTo rid =>
    simp only [Task.applyOp, assign_to_robot_eq] at h
    by_cases hp : t.status = TaskStatus.pending
    · rw [if_pos hp] at h
      simp only [Except.toOption, Option.some_inj] at h
      subst h
      exact Or.inl ⟨hp, rfl⟩
    · rw [if_neg hp] at h
      simp [Except.toOption] at h
  | start =>
    simp only [Task.applyOp, Task.start_execution] at h
    by_cases hp : t.status = TaskStatus.assigned
    · rw [if_pos hp] at h
      simp only [Except.toOption, Option.some_inj] at h
      subst h
      exact Or.inr (Or.inl ⟨hp, rfl⟩)
    · rw [if_neg hp] at h
      simp [Except.toOption] at h
  | complete =>
    simp only [Task.applyOp, Task.complete] at h
    by_cases hp : t.status = TaskStatus.in_progress
    · rw [if_pos hp] at h
      simp only [Except.toOption, Option.some_inj] at h
      subst h
      exact Or.inr (Or.inr (Or.inl ⟨hp, rfl⟩))
    · rw [if_neg hp] at h
      simp [Except.toOption] at h
  | fail reason =>
    simp only [Task.applyOp, Option.some_inj] at h
    subst h
    exact Or.inr (Or.inr (Or.inr rfl))

theorem applyOp_none_iff (t : Task) (op : TaskOp) :
    t.applyOp op = none ↔ opRejected t.status op := by
  cases op with
  | assignTo rid =>
    simp only [Task.applyOp, assign_to_robot_eq, opRejected]
    by_cases hp : t.status = TaskStatus.pending
    · simp [hp, Except.toOption]
    · simp [hp, Except.toOption]
  | start =>
    simp only [Task.applyOp, Task.start_execution, opRejected]
    by_cases hp : t.status = TaskStatus.assigned
    · simp [hp, Except.toOption]
    · simp [hp, Except.toOption]
  | complete =>
    simp only [Task.applyOp, Task.complete, opRejected]
    by_cases hp : t.status = TaskStatus.in_progress
    · simp [hp, Except.toOption]
    · simp [hp, Except.toOption]
  | fail reason =>
    simp [Task.applyOp, opRejected]

theorem applySeq_reflTransGen (ops : List TaskOp) :
    ∀ t : Task, Relation.ReflTransGen allowedStep t.status (t.applySeq ops).status := by
  induction ops with
  | nil => intro t; exact Relation.ReflTransGen.refl
  | cons op ops ih =>
    intro t
    show Relation.ReflTransGen allowedStep t.status
      (((t.applyOp op).getD t).applySeq ops).status
    cases hop : t.applyOp op with
    | none => exact ih t
    | some t' =>
      exact Relation.ReflTransGen.head (applyOp_allowedStep t op t' hop) (ih t')

/-- Claim C5: each lifecycle method succeeds only along
PENDING→ASSIGNED→IN_PROGRESS→COMPLETED, or jumps to FAILED via `fail`
(which always succeeds); every other attempt raises (leaving the task
unchanged, which the driver `applySeq` makes explicit), so any sequence of
calls moves the status only along allowed edges. -/
theorem task_status_transitions (t : Task) (op : TaskOp) :
    (∀ t', t.applyOp op = some t' → allowedStep t.status t'.status)
    ∧ (t.applyOp op = none ↔ opRejected t.status op)
    ∧ (∀ ops : List TaskOp,
        Relation.ReflTransGen allowedStep t.status (t.applySeq ops).status) :=
  ⟨fun t' h => applyOp_allowedStep t op t' h,
   applyOp_none_iff t op,
   fun ops => applySeq_reflTransGen ops t⟩

/-- Witness for C5: assigning the pending task T1 yields an allowed
PENDING→ASSIGNED step. -/
theorem task_status_transitions_witness :
    cTask1.applyOp (TaskOp.assignTo "R2")
      = some { cTask1 with assigned_robot := some "R2", status := TaskStatus.assigned }
    ∧ allowedStep cTask1.status
        ({ cTask1 with assigned_robot := some "R2", status := TaskStatus.assigned } : Task).status :=
  ⟨by decide,
   (task_status_transitions cTask1 (TaskOp.assignTo "R2")).1 _ (by decide)⟩

/-! Lemmas for the stable descending-priority sort. -/

theorem mem_insertByPriority (t : Task) (l : List Task) (x : Task) :
    x ∈ insertByPriority t l ↔ x = t ∨ x ∈ l := by
  induction l with
  | nil => simp [insertByPriority]
  | cons y ys ih =>
    unfold insertByPriority
    by_cases h : t.priority < y.priority
    · rw [if_pos h]
      simp only [List.mem_cons, ih]
      tauto
    · rw [if_neg h]
      simp only [List.mem_cons]

theorem insertByPriority_perm (t : Task) (l : List Task) :
    (insertByPriority t l).Perm (t :: l) := by
  induction l with
  | nil => exact List.Perm.refl _
  | cons y ys ih =>
    unfold insertByPriority
    by_cases h : t.priority < y.priority
    · rw [if_pos h]
      exact (ih.cons y).trans (List.Perm.swap t y ys)
    · rw [if_neg h]

theorem sortedByPriorityDesc_perm (l : List Task) :
    (sortedByPriorityDesc l).Perm l := by
  induction l with
  | nil => exact List.Perm.refl _
  | cons t ts ih =>
    exact (insertByPriority_perm t (sortedByPriorityDesc ts)).trans (ih.cons t)

theorem pairwise_insertByPriority (t : Task) (l : List Task)
    (h : l.Pairwise (fun a b => b.priority ≤ a.priority)) :
    (insertByPriority t l).Pairwise (fun a b => b.priority ≤ a.priority) := by
  induction l with
  | nil => simp [insertByPriority]
  | cons y ys ih =>
    rw [List.pairwise_cons] at h
    unfold insertByPriority
    by_cases hlt : t.priority < y.priority
    · rw [if_pos hlt]
      rw [List.pairwise_cons]
      refine ⟨?_, ih h.2⟩
      intro z hz
      rw [mem_insertByPriority] at hz
      cases hz with
      | inl hz => subst hz; exact le_of_lt hlt
      | inr hz => exact h.1 z hz
    · rw [if_neg hlt]
      rw [List.pairwise_cons]
      refine ⟨?_, List.pairwise_cons.2 h⟩
      intro z hz
      rw [List.mem_cons] at hz
      cases hz with
      | inl hz => subst hz; exact not_lt.1 hlt
      | inr hz => exact le_trans (h.1 z hz) (not_lt.1 hlt)

theorem sortedByPriorityDesc_pairwise (l : List Task) :
    (sortedByPriorityDesc l).Pairwise (fun a b => b.priority ≤ a.priority) := by
  induction l with
  | nil => simp [sortedByPriorityDesc]
  | cons t ts ih =>
    exact pairwise_insertByPriority t (sortedByPriorityDesc ts) ih

theorem filter_insertByPriority (t : Task) (l : List Task) (p : Int) :
    (insertByPriority t l).filter (fun x => decide (x.priority = p))
      = if t.priority = p
          then t :: l.filter (fun x => decide (x.priority = p))
          else l.filter (fun x => decide (x.priority = p)) := by
  induction l with
  | nil =>
    by_cases h : t.priority = p
    · simp [insertByPriority, h]
    · simp [insertByPriority, h]
  | cons y ys ih =>
    unfold insertByPriority
    by_cases hlt : t.priority < y.priority
    · rw [if_pos hlt]
      by_cases hyp : y.priority = p
      · have htp : t.priority ≠ p := by
          rw [← hyp]
          exact ne_of_lt hlt
        simp [List.filter_cons, hyp, htp, ih]
      · simp [List.filter_cons, hyp, ih]
    · rw [if_neg hlt]
      by_cases htp : t.priority = p
      · simp [List.filter_cons, htp]
      · simp [List.filter_cons, htp]

theorem sortedByPriorityDesc_filter (l : List Task) (p : Int) :
    (sortedByPriorityDesc l).filter (fun x => decide (x.priority = p))
      = l.filter (fun x => decide (x.priority = p)) := by
  induction l with
  | nil => rfl
  | cons t ts ih =>
    show (insertByPriority t (sortedByPriorityDesc ts)).filter
        (fun x => decide (x.priority = p)) = _
    rw [filter_insertByPriority]
    by_cases h : t.priority = p
    · rw [if_pos h, ih, List.filter_cons, if_pos (by simp [h])]
    · rw [if_neg h, ih, List.filter_cons, if_neg (by simp [h])]

/-- Claim C6: `get_pending_tasks` returns exactly the PENDING tasks
(a permutation of the pending-filtered collection), sorted by descending
priority, and stably: within each priority class the insertion order of
the collection is preserved verbatim. -/
theorem get_pending_tasks_sorted_stable (s : RobotScheduler) :
    (s.get_pending_tasks).Perm (s.tasks.filter (fun t => t.is_pending))
    ∧ (s.get_pending_tasks).Pairwise (fun a b => b.priority ≤ a.priority)
    ∧ (∀ p : Int, (s.get_pending_tasks).filter (fun x => decide (x.priority = p))
        = (s.tasks.filter (fun t => t.is_pending)).filter
            (fun x => decide (x.priority = p))) :=
  ⟨sortedByPriorityDesc_perm (s.tasks.filter (fun t => t.is_pending)),
   sortedByPriorityDesc_pairwise (s.tasks.filter (fun t => t.is_pending)),
   fun p => sortedByPriorityDesc_filter (s.tasks.filter (fun t => t.is_pending)) p⟩

/-! Lemmas for the nearest-available-robot scan. -/

theorem bestLoop_cons_none (target : Position) (r : Robot) (rs : List Robot) :
    bestLoop target (r :: rs) none
      = bestLoop target rs (some (r, r.position.dist2 target)) := rfl

theorem bestLoop_cons_some (target : Position) (r : Robot) (rs : List Robot)
    (b : Robot) (m : ℚ) :
    bestLoop target (r :: rs) (some (b, m))
      = if r.position.dist2 target < m
          then bestLoop target rs (some (r, r.position.dist2 target))
          else bestLoop target rs (some (b, m)) := rfl

theorem bestLoop_spec (target : Position) (l : List Robot) :
    ∀ b : Robot,
    ∃ c, bestLoop target l (some (b, b.position.dist2 target))
        = some (c, c.position.dist2 target)
      ∧ ((c = b ∧ ∀ x ∈ l, b.position.dist2 target ≤ x.position.dist2 target)
        ∨ (∃ l₁ l₂, l = l₁ ++ c :: l₂
            ∧ c.position.dist2 target < b.position.dist2 target
            ∧ (∀ x ∈ l₁, c.position.dist2 target < x.position.dist2 target)
            ∧ (∀ x ∈ l₂, c.position.dist2 target ≤ x.position.dist2 target))) := by
  induction l with
  | nil =>
    intro b
    exact ⟨b, rfl, Or.inl ⟨rfl, by simp⟩⟩
  | cons r rs ih =>
    intro b
    by_cases hrb : r.position.dist2 target < b.position.dist2 target
    · obtain ⟨c, hc, hcase⟩ := ih r
      refine ⟨c, ?_, ?_⟩
      · rw [bestLoop_cons_some, if_pos hrb]
        exact hc
      · cases hcase with
        | inl h =>
          obtain ⟨rfl, hall⟩ := h
          exact Or.inr ⟨[], rs, rfl, hrb, by simp, hall⟩
        | inr h =>
          obtain ⟨l₁, l₂, hdecomp, hlt, h1, h2⟩ := h
          refine Or.inr ⟨r :: l₁, l₂, by rw [hdecomp, List.cons_append],
            lt_trans hlt hrb, ?_, h2⟩
          intro x hx
          rw [List.mem_cons] at hx
          cases hx with
          | inl hx => subst hx; exact hlt
          | inr hx => exact h1 x hx
    · obtain ⟨c, hc, hcase⟩ := ih b
      refine ⟨c, ?_, ?_⟩
      · rw [bestLoop_cons_some, if_neg hrb]
        exact hc
      · cases hcase with
        | inl h =>
          obtain ⟨rfl, hall⟩ := h
          refine Or.inl ⟨rfl, ?_⟩
          intro x hx
          rw [List.mem_cons] at hx
          cases hx with
          | inl hx => subst hx; exact not_lt.1 hrb
          | inr hx => exact hall x hx
        | inr h =>
          obtain ⟨l₁, l₂, hdecomp, hlt, h1, h2⟩ := h
          refine Or.inr ⟨r :: l₁, l₂, by rw [hdecomp, List.cons_append], hlt, ?_, h2⟩
          intro x hx
          rw [List.mem_cons] at hx
          cases hx with
          | inl hx => subst hx; exact lt_of_lt_of_le hlt (not_lt.1 hrb)
          | inr hx => exact h1 x hx

theorem find_best_robot_spec (s : RobotScheduler) (task : Task)
    (r : Robot) (rest : List Robot)
    (h : s.get_available_robots = r :: rest) :
    ∃ best l₁ l₂, s.find_best_robot task = some best
      ∧ s.get_available_robots = l₁ ++ best :: l₂
      ∧ (∀ x ∈ l₁, best.position.dist2 task.target_position
          < x.position.dist2 task.target_position)
      ∧ (∀ x ∈ l₂, best.position.dist2 task.target_position
          ≤ x.position.dist2 task.target_position) := by
  obtain ⟨c, hc, hcase⟩ := bestLoop_spec task.target_position rest r
  have hfb : s.find_best_robot task = some c := by
    unfold RobotScheduler.find_best_robot
    rw [h, bestLoop_cons_none, hc]
    rfl
  cases hcase with
  | inl hcl =>
    obtain ⟨rfl, hall⟩ := hcl
    exact ⟨c, [], rest, hfb, by rw [h, List.nil_append], by simp, hall⟩
  | inr hcr =>
    obtain ⟨l₁, l₂, hdecomp, hlt, h1, h2⟩ := hcr
    refine ⟨c, r :: l₁, l₂, hfb, by rw [h, hdecomp, List.cons_append], ?_, h2⟩
    intro x hx
    rw [List.mem_cons] at hx
    cases hx with
    | inl hx => subst hx; exact hlt
    | inr hx => exact h1 x hx

theorem find_best_robot_props (s : RobotScheduler) (task : Task) (best : Robot)
    (h : s.find_best_robot task = some best) :
    best ∈ s.robots ∧ best.is_available = true := by
  cases hav : s.get_available_robots with
  | nil =>
    exfalso
    unfold RobotScheduler.find_best_robot at h
    rw [hav] at h
    simp [bestLoop] at h
  | cons r rest =>
    obtain ⟨b, l₁, l₂, hfb, hdec, h1, h2⟩ := find_best_robot_spec s task r rest hav
    rw [hfb, Option.some_inj] at h
    subst h
    have hmem : b ∈ s.get_available_robots := by
      rw [hdec]
      exact List.mem_append.2 (Or.inr (List.mem_cons_self _ _))
    unfold RobotScheduler.get_available_robots at hmem
    exact ⟨(List.mem_filter.1 hmem).1, (List.mem_filter.1 hmem).2⟩

/-- Claim C1: `assign_task` first inserts the task into the collection,
then selects, among available robots (IDLE and battery strictly above 20),
the first robot in iteration order at the minimal straight-line distance to
the task's target (strict `<` comparisons give the first encountered the
tie); with no available robot it returns nothing and the task stays
PENDING. -/
theorem assign_task_selects_nearest (s : RobotScheduler) (task : Task)
    (hp : task.status = TaskStatus.pending) :
    (lookupTask (s.assign_task task).2.tasks task.task_id).isSome = true
    ∧ (s.get_available_robots = [] →
        s.assign_task task = (Except.ok none, s.add_task task)
        ∧ lookupTask (s.assign_task task).2.tasks task.task_id = some task)
    ∧ (∀ r rest, s.get_available_robots = r :: rest →
        ∃ best l₁ l₂,
          (s.assign_task task).1 = Except.ok (some best.robot_id)
          ∧ best.is_available = true
          ∧ s.get_available_robots = l₁ ++ best :: l₂
          ∧ (∀ x ∈ l₁, best.position.distance_to task.target_position
              < x.position.distance_to task.target_position)
          ∧ (∀ x ∈ l₂, best.position.distance_to task.target_position
              ≤ x.position.distance_to task.target_position)) := by
  cases hav : s.get_available_robots with
  | nil =>
    have hfb : (s.add_task task).find_best_robot task = none := by
      show s.find_best_robot task = none
      unfold RobotScheduler.find_best_robot
      rw [hav]
      rfl
    have heq : s.assign_task task = (Except.ok none, s.add_task task) := by
      simp only [RobotScheduler.assign_task, hfb]
    refine ⟨?_, fun _ => ⟨heq, ?_⟩, ?_⟩
    · rw [heq]
      show (lookupTask (upsertTask s.tasks task) task.task_id).isSome = true
      rw [lookupTask_upsertTask]
      rfl
    · rw [heq]
      exact lookupTask_upsertTask s.tasks task
    · intro r rest h
      simp at h
  | cons r rest =>
    obtain ⟨best, l₁, l₂, hfb, hdec, h1, h2⟩ := find_best_robot_spec s task r rest hav
    have hbp := find_best_robot_props s task best hfb
    have hfb1 : (s.add_task task).find_best_robot task = some best := hfb
    have hra : best.assign_task task.task_id
        = Except.ok { best with current_task := some task.task_id, status := RobotStatus.busy } := by
      unfold Robot.assign_task
      rw [if_pos hbp.2]
    have hta : task.assign_to_robot best.robot_id
        = Except.ok { task with assigned_robot := some best.robot_id, status := TaskStatus.assigned } := by
      rw [assign_to_robot_eq, if_pos hp]
    have heq : s.assign_task task
        = (Except.ok (some best.robot_id),
          { robots := updateRobotList (s.add_task task).robots
              { best with current_task := some task.task_id, status := RobotStatus.busy },
            tasks := updateTaskList (s.add_task task).tasks
              { task with assigned_robot := some best.robot_id, status := TaskStatus.assigned } }) := by
      simp only [RobotScheduler.assign_task, hfb1, hra, hta]
    refine ⟨?_, ?_, ?_⟩
    · rw [heq]
      show (lookupTask (updateTaskList (upsertTask s.tasks task)
        { task with assigned_robot := some best.robot_id, status := TaskStatus.assigned })
          task.task_id).isSome = true
      rw [lookupTask_updateTaskList (upsertTask s.tasks task)
        { task with assigned_robot := some best.robot_id, status := TaskStatus.assigned }
        (by rw [lookupTask_upsertTask]; rfl)]
      rfl
    · intro h
      simp at h
    · intro r' rest' h
      rw [hav] at hdec
      refine ⟨best, l₁, l₂, by rw [heq], hbp.2, hdec, ?_, ?_⟩
      · intro x hx
        exact (distance_to_lt_iff best.position x.position task.target_position).2
          (h1 x hx)
      · intro x hx
        exact (distance_to_le_iff best.position x.position task.target_position).2
          (h2 x hx)

/-- Witness for C1: with robots at distances 5, 1 and 10 from the target,
the robot at distance 1 (R2) is selected. -/
theorem assign_task_selects_nearest_witness :
    cTask1.status = TaskStatus.pending
    ∧ cSched0.get_available_robots = cRd5 :: [cRd1, cRd10]
    ∧ (∃ best l₁ l₂,
        (cSched0.assign_task cTask1).1 = Except.ok (some best.robot_id)
        ∧ best.is_available = true
        ∧ cSched0.get_available_robots = l₁ ++ best :: l₂
        ∧ (∀ x ∈ l₁, best.position.distance_to cTask1.target_position
            < x.position.distance_to cTask1.target_position)
        ∧ (∀ x ∈ l₂, best.position.distance_to cTask1.target_position
            ≤ x.position.distance_to cTask1.target_position))
    ∧ (cSched0.assign_task cTask1).1 = Except.ok (some "R2") :=
  ⟨by decide, by decide,
   (assign_task_selects_nearest cSched0 cTask1 (by decide)).2.2
     cRd5 [cRd1, cRd10] (by decide),
   by decide⟩

/-- Counterexample to C2 as stated: calling `assign_task` on `cSched0`
with the already-COMPLETED task T9 raises AssignmentFailed, yet afterwards
the selected robot R2 is BUSY holding T9 (its fields changed) and the
stored task's status changed from COMPLETED to PENDING. -/
theorem rejected_transition_state_cex :
    (cSched0.assign_task cTaskDone).1 = Except.error "任务分配失败"
    ∧ lookupRobot cSched0.robots "R2" = some cRd1
    ∧ cRd1.status = RobotStatus.idle
    ∧ cRd1.current_task = none
    ∧ lookupRobot (cSched0.assign_task cTaskDone).2.robots "R2"
        = some { cRd1 with current_task := some "T9", status := RobotStatus.busy }
    ∧ ({ cRd1 with current_task := some "T9", status := RobotStatus.busy } : Robot) ≠ cRd1
    ∧ lookupTask (cSched0.assign_task cTaskDone).2.tasks "T9"
        = some { cTaskDone with status := TaskStatus.pending, assigned_robot := none }
    ∧ cTaskDone.status = TaskStatus.completed := by
  decide

/-- Claim C2 (amended): entity-level rejections (unit assign on an
unavailable unit; task transitions from disallowed states) raise exactly
off their availability/state precondition and produce no updated entity,
and `complete_task` / `fail_task` on an absent id leave the scheduler
unchanged; however `assign_task` failing with AssignmentFailed is a
partial commit: the selected unit is left BUSY holding the task id while
the task is stored force-reset to PENDING/unassigned. -/
theorem rejected_transition_state (r : Robot) (t : Task)
    (tid rid reason : String) (s : RobotScheduler) :
    ((r.assign_task tid).isOk = r.is_available)
    ∧ ((t.assign_to_robot rid).isOk = t.is_pending)
    ∧ (t.start_execution.isOk = decide (t.status = TaskStatus.assigned))
    ∧ ((Task.complete t).isOk = decide (t.status = TaskStatus.in_progress))
    ∧ (lookupTask s.tasks tid = none →
        s.complete_task tid = (Except.error ("任务" ++ tid ++ "不存在"), s)
        ∧ s.fail_task tid reason = (false, s))
    ∧ (∀ e s', s.assign_task t = (Except.error e, s') →
        ∃ best, s.find_best_robot t = some best
          ∧ t.status ≠ TaskStatus.pending
          ∧ lookupRobot s'.robots best.robot_id
              = some { best with current_task := some t.task_id, status := RobotStatus.busy }
          ∧ lookupTask s'.tasks t.task_id
              = some { t with status := TaskStatus.pending, assigned_robot := none }) := by
  refine ⟨?_, ?_, ?_, ?_, ?_, ?_⟩
  · by_cases hb : r.is_available = true
    · unfold Robot.assign_task
      rw [if_pos hb, hb]
      rfl
    · unfold Robot.assign_task
      rw [if_neg hb]
      rw [Bool.not_eq_true] at hb
      rw [hb]
      rfl
  · by_cases hp : t.status = TaskStatus.pending
    · rw [assign_to_robot_eq, if_pos hp]
      simp [Task.is_pending, hp, Except.isOk, Except.toBool]
    · rw [assign_to_robot_eq, if_neg hp]
      simp [Task.is_pending, hp, Except.isOk, Except.toBool]
  · by_cases hp : t.status = TaskStatus.assigned
    · unfold Task.start_execution
      rw [if_pos hp]
      simp [hp, Except.isOk, Except.toBool]
    · unfold Task.start_execution
      rw [if_neg hp]
      simp [hp, Except.isOk, Except.toBool]
  · by_cases hp : t.status = TaskStatus.in_progress
    · unfold Task.complete
      rw [if_pos hp]
      simp [hp, Except.isOk, Except.toBool]
    · unfold Task.complete
      rw [if_neg hp]
      simp [hp, Except.isOk, Except.toBool]
  · intro h
    constructor
    · unfold RobotScheduler.complete_task
      rw [h]
    · unfold RobotScheduler.fail_task
      rw [h]
  · intro e s' hcall
    cases hfb : (s.add_task t).find_best_robot t with
    | none =>
      have heq : s.assign_task t = (Except.ok none, s.add_task t) := by
        simp only [RobotScheduler.assign_task, hfb]
      rw [heq] at hcall
      simp at hcall
    | some best =>
      have hbp := find_best_robot_props (s.add_task t) t best hfb
      have hfbs : s.find_best_robot t = some best := hfb
      have hra : best.assign_task t.task_id
          = Except.ok { best with current_task := some t.task_id, status := RobotStatus.busy } := by
        unfold Robot.assign_task
        rw [if_pos hbp.2]
      by_cases hp : t.status = TaskStatus.pending
      · have hta : t.assign_to_robot best.robot_id
            = Except.ok { t with assigned_robot := some best.robot_id, status := TaskStatus.assigned } := by
          rw [assign_to_robot_eq, if_pos hp]
        have heq : (s.assign_task t).1 = Except.ok (some best.robot_id) := by
          simp only [RobotScheduler.assign_task, hfb, hra, hta]
        rw [hcall] at heq
        simp at heq
      · have hta : t.assign_to_robot best.robot_id
            = Except.error ("任务" ++ t.task_id ++ "无法分配") := by
          rw [assign_to_robot_eq, if_neg hp]
        have heq : s.assign_task t
            = (Except.error "任务分配失败",
              { robots := updateRobotList (s.add_task t).robots
                  { best with current_task := some t.task_id, status := RobotStatus.busy },
                tasks := updateTaskList (s.add_task t).tasks
                  { t with status := TaskStatus.pending, assigned_robot := none } }) := by
          simp only [RobotScheduler.assign_task, hfb, hra, hta]
        rw [heq, Prod.mk.injEq] at hcall
        obtain ⟨he, hs⟩ := hcall
        refine ⟨best, hfbs, hp, ?_, ?_⟩
        · rw [← hs]
          exact lookupRobot_updateRobotList (s.add_task t).robots
            { best with current_task := some t.task_id, status := RobotStatus.busy }
            (by
              show (lookupRobot (s.add_task t).robots best.robot_id).isSome = true
              unfold lookupRobot
              rw [List.find?_isSome]
              exact ⟨best, hbp.1, by simp⟩)
        · rw [← hs]
          exact lookupTask_updateTaskList (s.add_task t).tasks
            { t with status := TaskStatus.pending, assigned_robot := none }
            (by
              show (lookupTask (upsertTask s.tasks t) t.task_id).isSome = true
              rw [lookupTask_upsertTask]
              rfl)

/-- Witness for the amended C2 at the concrete failing call of the
counterexample. -/
theorem rejected_transition_state_witness :
    ∃ best, cSched0.find_best_robot cTaskDone = some best
      ∧ cTaskDone.status ≠ TaskStatus.pending
      ∧ lookupRobot ((cSched0.assign_task cTaskDone).2).robots best.robot_id
          = some { best with current_task := some cTaskDone.task_id, status := RobotStatus.busy }
      ∧ lookupTask ((cSched0.assign_task cTaskDone).2).tasks cTaskDone.task_id
          = some { cTaskDone with status := TaskStatus.pending, assigned_robot := none } :=
  (rejected_transition_state cRd1 cTaskDone "T9" "R2" "" cSched0).2.2.2.2.2
    "任务分配失败" (cSched0.assign_task cTaskDone).2 (by decide)

/-! Lemmas for counting available robots across assignment calls. -/

theorem countP_lt_of_witness {α : Type} (p q : α → Bool) (l : List α)
    (hpq : ∀ a ∈ l, p a = true → q a = true) (a : α) (ha : a ∈ l)
    (hq : q a = true) (hp : p a = false) :
    l.countP p < l.countP q := by
  induction l with
  | nil => simp at ha
  | cons x xs ih =>
    rw [List.mem_cons] at ha
    rw [List.countP_cons, List.countP_cons]
    cases ha with
    | inl hax =>
      subst hax
      have hle : xs.countP p ≤ xs.countP q :=
        List.countP_mono_left (fun y hy => hpq y (List.mem_cons_of_mem _ hy))
      simp only [hp, hq, if_true, if_false]
      simp
      omega
    | inr hax =>
      have hstrict := ih (fun y hy hpy => hpq y (List.mem_cons_of_mem _ hy) hpy) hax
      have hhead : (if p x = true then 1 else 0) ≤ (if q x = true then 1 else 0) := by
        by_cases hx : p x = true
        · rw [if_pos hx, if_pos (hpq x (List.mem_cons_self _ _) hx)]
        · rw [if_neg hx]
          exact Nat.zero_le _
      exact Nat.add_lt_add_of_lt_of_le hstrict hhead

theorem avail_count_update_lt (l : List Robot) (best r' : Robot)
    (hmem : best ∈ l) (hav : best.is_available = true)
    (hid : r'.robot_id = best.robot_id)
    (hna : r'.is_available = false) :
    ((updateRobotList l r').filter (fun r => r.is_available)).length
      < (l.filter (fun r => r.is_available)).length := by
  rw [← List.countP_eq_length_filter, ← List.countP_eq_length_filter]
  unfold updateRobotList
  rw [List.countP_map]
  refine countP_lt_of_witness _ _ l ?_ best hmem hav ?_
  · intro a ha hpa
    simp only [Function.comp] at hpa
    by_cases hba : a.robot_id = r'.robot_id
    · rw [if_pos hba] at hpa
      rw [hpa] at hna
      cases hna
    · rwa [if_neg hba] at hpa
  · simp only [Function.comp]
    rw [if_pos hid.symm]
    exact hna

/-- The three observable shapes of an `assign_task` call: no available
robot, or a selected robot that is set BUSY with the call succeeding
(pending task) or failing defensively (non-pending task). -/
theorem assign_task_cases (s : RobotScheduler) (t : Task) :
    (s.assign_task t = (Except.ok none, s.add_task t)
      ∧ (s.add_task t).find_best_robot t = none)
    ∨ (∃ best, (s.add_task t).find_best_robot t = some best
        ∧ best ∈ s.robots ∧ best.is_available = true
        ∧ (s.assign_task t).2.robots
            = updateRobotList s.robots
                { best with current_task := some t.task_id, status := RobotStatus.busy }
        ∧ ((t.status = TaskStatus.pending
              ∧ (s.assign_task t).1 = Except.ok (some best.robot_id))
          ∨ (t.status ≠ TaskStatus.pending
              ∧ (s.assign_task t).1 = Except.error "任务分配失败"))) := by
  cases hfb : (s.add_task t).find_best_robot t with
  | none =>
    left
    refine ⟨?_, rfl⟩
    simp only [RobotScheduler.assign_task, hfb]
  | some best =>
    right
    have hbp := find_best_robot_props (s.add_task t) t best hfb
    have hra : best.assign_task t.task_id
        = Except.ok { best with current_task := some t.task_id, status := RobotStatus.busy } := by
      unfold Robot.assign_task
      rw [if_pos hbp.2]
    by_cases hp : t.status = TaskStatus.pending
    · have hta : t.assign_to_robot best.robot_id
          = Except.ok { t with assigned_robot := some best.robot_id, status := TaskStatus.assigned } := by
        rw [assign_to_robot_eq, if_pos hp]
      have heq : s.assign_task t
          = (Except.ok (some best.robot_id),
            { robots := updateRobotList (s.add_task t).robots
                { best with current_task := some t.task_id, status := RobotStatus.busy },
              tasks := updateTaskList (s.add_task t).tasks
                { t with assigned_robot := some best.robot_id, status := TaskStatus.assigned } }) := by
        simp only [RobotScheduler.assign_task, hfb, hra, hta]
      exact ⟨best, rfl, hbp.1, hbp.2, by rw [heq]; rfl, Or.inl ⟨hp, by rw [heq]⟩⟩
    · have hta : t.assign_to_robot best.robot_id
          = Except.error ("任务" ++ t.task_id ++ "无法分配") := by
        rw [assign_to_robot_eq, if_neg hp]
      have heq : s.assign_task t
          = (Except.error "任务分配失败",
            { robots := updateRobotList (s.add_task t).robots
                { best with current_task := some t.task_id, status := RobotStatus.busy },
              tasks := updateTaskList (s.add_task t).tasks
                { t with status := TaskStatus.pending, assigned_robot := none } }) := by
        simp only [RobotScheduler.assign_task, hfb, hra, hta]
      exact ⟨best, rfl, hbp.1, hbp.2, by rw [heq]; rfl, Or.inr ⟨hp, by rw [heq]⟩⟩

theorem assign_task_avail_le (s : RobotScheduler) (t : Task) :
    ((s.assign_task t).2.get_available_robots).length
      ≤ (s.get_available_robots).length := by
  cases assign_task_cases s t with
  | inl h =>
    rw [h.1]
    exact le_refl _
  | inr h =>
    obtain ⟨best, hfb, hmem, hav, hrob, hres⟩ := h
    have : (s.assign_task t).2.get_available_robots
        = (updateRobotList s.robots
            { best with current_task := some t.task_id, status := RobotStatus.busy }).filter
          (fun r => r.is_available) := by
      unfold RobotScheduler.get_available_robots
      rw [hrob]
    rw [this]
    exact le_of_lt (avail_count_update_lt s.robots best _ hmem hav rfl rfl)

theorem assign_task_avail_lt (s : RobotScheduler) (t : Task) (rid : String)
    (h : (s.assign_task t).1 = Except.ok (some rid)) :
    ((s.assign_task t).2.get_available_robots).length
      < (s.get_available_robots).length := by
  cases assign_task_cases s t with
  | inl hc =>
    rw [hc.1] at h
    simp at h
  | inr hc =>
    obtain ⟨best, hfb, hmem, hav, hrob, hres⟩ := hc
    have : (s.assign_task t).2.get_available_robots
        = (updateRobotList s.robots
            { best with current_task := some t.task_id, status := RobotStatus.busy }).filter
          (fun r => r.is_available) := by
      unfold RobotScheduler.get_available_robots
      rw [hrob]
    rw [this]
    exact avail_count_update_lt s.robots best _ hmem hav rfl rfl

theorem autoAssignLoop_length_le (ts : List Task) :
    ∀ s : RobotScheduler,
    ((autoAssignLoop ts s).1).length ≤ (s.get_available_robots).length := by
  induction ts with
  | nil =>
    intro s
    simp [autoAssignLoop]
  | cons t ts ih =>
    intro s
    cases hcall : s.assign_task t with
    | mk res s' =>
      cases res with
      | ok o =>
        cases o with
        | some rid =>
          have hstep : autoAssignLoop (t :: ts) s
              = ((t.task_id, rid) :: (autoAssignLoop ts s').1, (autoAssignLoop ts s').2) := by
            simp only [autoAssignLoop, hcall]
          have hlt : (s'.get_available_robots).length < (s.get_available_robots).length := by
            have h2 := assign_task_avail_lt s t rid (by rw [hcall])
            rw [hcall] at h2
            exact h2
          have h3 := ih s'
          rw [hstep]
          simp only [List.length_cons]
          omega
        | none =>
          have hstep : autoAssignLoop (t :: ts) s = autoAssignLoop ts s' := by
            simp only [autoAssignLoop, hcall]
          have hle : (s'.get_available_robots).length ≤ (s.get_available_robots).length := by
            have h2 := assign_task_avail_le s t
            rw [hcall] at h2
            exact h2
          rw [hstep]
          exact le_trans (ih s') hle
      | error e =>
        have hstep : autoAssignLoop (t :: ts) s = autoAssignLoop ts s' := by
          simp only [autoAssignLoop, hcall]
        have hle : (s'.get_available_robots).length ≤ (s.get_available_robots).length := by
          have h2 := assign_task_avail_le s t
          rw [hcall] at h2
          exact h2
        rw [hstep]
        exact le_trans (ih s') hle

theorem autoAssignLoop_mem (ts : List Task) :
    ∀ (s : RobotScheduler) (pr : String × String), pr ∈ (autoAssignLoop ts s).1 →
      ∃ t ∈ ts, t.task_id = pr.1 := by
  induction ts with
  | nil =>
    intro s pr h
    simp [autoAssignLoop] at h
  | cons t ts ih =>
    intro s pr h
    cases hcall : s.assign_task t with
    | mk res s' =>
      cases res with
      | ok o =>
        cases o with
        | some rid =>
          rw [show autoAssignLoop (t :: ts) s
              = ((t.task_id, rid) :: (autoAssignLoop ts s').1, (autoAssignLoop ts s').2)
            from by simp only [autoAssignLoop, hcall]] at h
          rw [List.mem_cons] at h
          cases h with
          | inl h =>
            exact ⟨t, List.mem_cons_self _ _, by rw [h]⟩
          | inr h =>
            obtain ⟨t', ht', he⟩ := ih s' pr h
            exact ⟨t', List.mem_cons_of_mem _ ht', he⟩
        | none =>
          rw [show autoAssignLoop (t :: ts) s = autoAssignLoop ts s'
            from by simp only [autoAssignLoop, hcall]] at h
          obtain ⟨t', ht', he⟩ := ih s' pr h
          exact ⟨t', List.mem_cons_of_mem _ ht', he⟩
      | error e =>
        rw [show autoAssignLoop (t :: ts) s = autoAssignLoop ts s'
          from by simp only [autoAssignLoop, hcall]] at h
        obtain ⟨t', ht', he⟩ := ih s' pr h
        exact ⟨t', List.mem_cons_of_mem _ ht', he⟩

/-- Claim C7: `auto_assign_pending_tasks` never raises (assignment
failures are swallowed by construction), returns only successful
assignments of tasks that were pending in the initial state, and the
number of assignments is at most the number of robots available when the
call began. -/
theorem auto_assign_partial_success (s : RobotScheduler) :
    ((s.auto_assign_pending_tasks).1).length ≤ (s.get_available_robots).length
    ∧ (∀ pr ∈ (s.auto_assign_pending_tasks).1,
        ∃ t, t ∈ s.tasks ∧ t.status = TaskStatus.pending ∧ t.task_id = pr.1) := by
  constructor
  · exact autoAssignLoop_length_le s.get_pending_tasks s
  · intro pr hpr
    obtain ⟨t, ht, he⟩ := autoAssignLoop_mem s.get_pending_tasks s pr hpr
    have hmem : t ∈ s.tasks.filter (fun x => x.is_pending) :=
      (sortedByPriorityDesc_perm (s.tasks.filter (fun x => x.is_pending))).mem_iff.1 ht
    rw [List.mem_filter] at hmem
    refine ⟨t, hmem.1, ?_, he⟩
    have hpend := hmem.2
    unfold Task.is_pending at hpend
    simpa using hpend

/-- Witness for C7: two available robots, three pending tasks — exactly
two assignments are made (T2 first by priority, to the nearest robot R2)
and T3 stays PENDING. -/
theorem auto_assign_partial_success_witness :
    ((cSched2.auto_assign_pending_tasks).1).length
        ≤ (cSched2.get_available_robots).length
    ∧ (∃ t, t ∈ cSched2.tasks ∧ t.status = TaskStatus.pending ∧ t.task_id = "T2")
    ∧ ((cSched2.auto_assign_pending_tasks).1).length = 2
    ∧ (cSched2.get_available_robots).length = 2
    ∧ (lookupTask ((cSched2.auto_assign_pending_tasks).2).tasks "T3").map
        (fun t => t.status) = some TaskStatus.pending :=
  ⟨(auto_assign_partial_success cSched2).1,
   (auto_assign_partial_success cSched2).2 ("T2", "R2") (by decide),
   by decide, by decide, by decide⟩

set_option maxRecDepth 10000 in
/-- Counterexample to C8 as stated: `cTaskLongDesc` is a valid,
constructible task whose description has exactly the maximum 500
characters; after `fail "x"` (reachable through the public operations) the
description has 508 characters, exceeding the 500-character bound — the
assignment in `fail` bypasses the construction-time validation. -/
theorem fail_description_bound_cex :
    cTaskLongDesc.Valid
    ∧ cTaskLongDesc.description.length = 500
    ∧ 500 < ((cTaskLongDesc.fail "x").description).length
    ∧ ((cTaskLongDesc.fail "x").description).length = 508 := by
  refine ⟨?_, ?_, ?_, ?_⟩ <;> decide

/-- Claim C8 (amended): the 500-character description bound holds at
construction and is preserved by assign/start/complete, which never touch
the description; `fail` with a non-empty reason appends to the description
without re-validation and can exceed 500, but the new length is bounded by
507 plus the reason's length (7 characters of separator text plus the
previous description of at most 500). -/
theorem fail_description_bound (t : Task) (reason : String)
    (h : t.description.length ≤ 500) :
    ((t.fail reason).description).length ≤ 507 + reason.length
    ∧ (reason = "" → (t.fail reason).description = t.description)
    ∧ (t.fail reason).status = TaskStatus.failed
    ∧ (∀ rid t', t.assign_to_robot rid = Except.ok t' → t'.description = t.description)
    ∧ (∀ t', t.start_execution = Except.ok t' → t'.description = t.description)
    ∧ (∀ t', Task.complete t = Except.ok t' → t'.description = t.description) := by
  refine ⟨?_, ?_, rfl, ?_, ?_, ?_⟩
  · unfold Task.fail
    by_cases hr : reason = ""
    · rw [if_pos hr, hr]
      show t.description.length ≤ 507 + "".length
      calc t.description.length ≤ 500 := h
        _ ≤ 507 + "".length := by omega
    · rw [if_neg hr]
      calc (pyStrip (t.description ++ "\n失败原因: " ++ reason)).length
          ≤ (t.description ++ "\n失败原因: " ++ reason).length :=
            pyStrip_length_le _
        _ = t.description.length + "\n失败原因: ".length + reason.length := by
            rw [String.length_append, String.length_append]
        _ = t.description.length + 7 + reason.length := by rfl
        _ ≤ 507 + reason.length := by omega
  · intro hr
    unfold Task.fail
    rw [if_pos hr]
  · intro rid t' h'
    rw [assign_to_robot_eq] at h'
    by_cases hp : t.status = TaskStatus.pending
    · rw [if_pos hp, Except.ok.injEq] at h'
      rw [← h']
    · rw [if_neg hp] at h'
      cases h'
  · intro t' h'
    unfold Task.start_execution at h'
    by_cases hp : t.status = TaskStatus.assigned
    · rw [if_pos hp, Except.ok.injEq] at h'
      rw [← h']
    · rw [if_neg hp] at h'
      cases h'
  · intro t' h'
    unfold Task.complete at h'
    by_cases hp : t.status = TaskStatus.in_progress
    · rw [if_pos hp, Except.ok.injEq] at h'
      rw [← h']
    · rw [if_neg hp] at h'
      cases h'

/-- Witness for the amended C8: failing the one-character-description task
T1 with an 11-character reason stays within the 507 + 11 bound. -/
theorem fail_description_bound_witness :
    cTask1.description.length ≤ 500
    ∧ ((cTask1.fail "low battery").description).length ≤ 507 + "low battery".length :=
  ⟨by decide, (fail_description_bound cTask1 "low battery" (by decide)).1⟩

end RoboSched
